import Mathlib

/-!
Shallow embedding of `django_dynamic_filter/__init__.py`.

The module defines a declarative filter framework:
* `Field` / `ModelField` metaclasses validate per-field options
  (`check_field_options`),
* `DynamicFilterMetaClass` collects `BaseField`-valued class attributes,
  assigns missing names, and sorts them by the attached Django form field's
  `creation_counter`,
* `BaseDynamicFilter.__init__` resolves session state (first-init / reset /
  continuation), materializes per-field values into the session-backed
  `values` dict, optionally consumes a POST submission, and writes `values`
  back to the session,
* `render_query_kwargs` / `is_active` turn stored values into query kwargs.

Python dicts are embedded as association lists with dict update semantics
(`alGet` / `alSet`), Python scalars as the inductive `Value` with Python
truthiness (`Value.truthy`), and the hook methods `store` / `unstore` /
`render_value` of a field as function-valued fields of `FieldSpec`.
-/

/-- Python scalar values that flow through the filter: `None`, strings,
integers and booleans. -/
inductive Value where
  | vnone
  | vstr (s : String)
  | vint (n : Int)
  | vbool (b : Bool)
deriving DecidableEq, Repr

/-- Python truthiness for `Value`: `None`, `""`, `0` and `False` are falsy. -/
def Value.truthy : Value → Bool
  | .vnone => false
  | .vstr s => s != ""
  | .vint n => n != 0
  | .vbool b => b

/-- Python truthiness of an optional string (`None` and `""` are falsy). -/
def truthyOptStr : Option String → Bool
  | none => false
  | some s => s != ""

/-- Association-list lookup, embedding `d[k]` / `d.get(k)` on a Python dict
whose keys are unique. -/
def alGet {κ : Type} [DecidableEq κ] : List (κ × Value) → κ → Option Value
  | [], _ => none
  | p :: rest, k => if p.1 = k then some p.2 else alGet rest k

/-- Association-list update, embedding `d[k] = v` on a Python dict: replace
the first binding of `k` in place, or append a new binding. -/
def alSet {κ : Type} [DecidableEq κ] : List (κ × Value) → κ → Value → List (κ × Value)
  | [], k, v => [(k, v)]
  | p :: rest, k, v => if p.1 = k then (k, v) :: rest else p :: alSet rest k v

/-- The session-backed `values` mapping (`fieldName → storedRawValue`). -/
abbrev Values := List (String × Value)

/-- A declared filter field: the `_meta` options (`name`, `operator`,
`force_empty`) together with the attached Django form field's data
(`creation_counter`, `initial`, `required`) and the `BaseField` hooks
`store` / `unstore` / `render_value` (overridable in subclasses; identity
on the base class). -/
structure FieldSpec where
  name : Option String
  operator : Option String
  force_empty : Bool
  counter : Nat
  initial : Value
  required : Bool
  store : Value → Value
  unstore : Value → Value
  render_value : Value → Value

/-- A class-body attribute of a filter declaration: either a `BaseField`
instance or any other attribute (skipped by the metaclass). -/
inductive Attr where
  | fieldAttr (f : FieldSpec)
  | otherAttr

/-- `if not value._meta.name: value._meta.name = key` in
`DynamicFilterMetaClass.__new__`: assign the declaring attribute's name to
the field when its own name option is unset (falsy). -/
def assignName (key : String) (f : FieldSpec) : FieldSpec :=
  if truthyOptStr f.name then f else { f with name := some key }

/-- One step of the metaclass collection loop: keep `(key, value)` pairs
whose value is a `BaseField` instance, assigning the attribute name. -/
def registerField (p : String × Attr) : Option (String × FieldSpec) :=
  match p.2 with
  | .fieldAttr f => some (p.1, assignName p.1 f)
  | .otherAttr => none

/-- The `current_fields` list collected by `DynamicFilterMetaClass.__new__`
before sorting. -/
def registeredFields (attrs : List (String × Attr)) : List (String × FieldSpec) :=
  attrs.filterMap registerField

/-- The sort key of `current_fields.sort`: comparison of the attached form
fields' `creation_counter`. -/
def fieldLe (a b : String × FieldSpec) : Prop :=
  a.2.counter ≤ b.2.counter

/-- Strict version of `fieldLe`, used to state uniqueness of the sorted
order when the counters are distinct. -/
def fieldLt (a b : String × FieldSpec) : Prop :=
  a.2.counter < b.2.counter

instance : DecidableRel fieldLe := fun a b => Nat.decLe a.2.counter b.2.counter

instance : IsTotal (String × FieldSpec) fieldLe := ⟨fun a b => Nat.le_total a.2.counter b.2.counter⟩

instance : IsTrans (String × FieldSpec) fieldLe := ⟨fun _ _ _ => Nat.le_trans⟩

instance : IsAntisymm (String × FieldSpec) fieldLt := ⟨fun _ _ h1 h2 => (Nat.lt_asymm h1 h2).elim⟩

/-- `base_fields` of a declared filter type: the collected fields, sorted by
the form fields' `creation_counter` with a stable sort
(`current_fields.sort(key=lambda x: x[1]._meta.field.creation_counter)`). -/
def collectFields (attrs : List (String × Attr)) : List (String × FieldSpec) :=
  (registeredFields attrs).insertionSort fieldLe

/-- Python exception raised by `check_field_options` or during construction
of its error message. -/
inductive PyError where
  | valueError (msg : String)
  | typeError (msg : String)
  | attributeError (msg : String)
deriving DecidableEq, Repr

/-- The object bound to `Meta.field`: a genuine Django form-field instance,
a class object (which carries a `__name__` attribute), or some other
instance (which does not). -/
inductive PyDescriptor where
  | formField (counter : Nat)
  | classObj (typeName : String)
  | instanceObj (typeName : String)
deriving DecidableEq, Repr

/-- `check_field_options(new_class, opts)`: raise `ValueError` when
`opts.field` is unset; otherwise, when `opts.field` is not a `FormField`
instance, the code builds a `TypeError` message by evaluating
`opts.field.__name__` — that attribute access itself raises
`AttributeError` when the descriptor is a plain instance (only class
objects carry `__name__`), and the `{{type}}` placeholder in the format
string is brace-escaped, so the formatted message contains the literal
text `\x7btype\x7d`. -/
def check_field_options (className : String) (field : Option PyDescriptor) :
    Except PyError Unit :=
  match field with
  | none => .error (.valueError (className ++ ".Meta.field have to be specified."))
  | some (.formField _) => .ok ()
  | some (.classObj _) =>
      .error (.typeError
        (className ++ ".Meta.field have to a valid Django Field, cannot be a \x7btype\x7d"))
  | some (.instanceObj t) =>
      .error (.attributeError (t ++ " object has no attribute __name__"))

/-- A record of the lookup collection (a Django model instance), identified
by its primary key scalar. -/
structure MRecord where
  pk : Value
deriving DecidableEq, Repr

/-- Exceptions raised by `queryset.get`. -/
inductive LookupError where
  | doesNotExist
  | multipleObjectsReturned
deriving DecidableEq, Repr

/-- `queryset.get(pk=k)`: returns the unique record with primary key `k`,
raising `DoesNotExist` when there is none and `MultipleObjectsReturned`
when there are several. -/
def querysetGet (qs : List MRecord) (k : Value) : Except LookupError MRecord :=
  match qs.filter (fun r => r.pk = k) with
  | [r] => .ok r
  | [] => .error .doesNotExist
  | _ => .error .multipleObjectsReturned

/-- `BaseField.store`: identity. -/
def baseFieldStore (v : Value) : Value := v

/-- `BaseField.unstore`: identity. -/
def baseFieldUnstore (v : Value) : Value := v

/-- `ModelField.store`: `value.pk if value else None`. A model instance is
always truthy as a Python object, so a present record stores its primary
key scalar and `None` stores as `None`. -/
def modelFieldStore (v : Option MRecord) : Value :=
  match v with
  | some r => r.pk
  | none => .vnone

/-- `ModelField.unstore`: `queryset.get(pk=value) if value else None` — the
branch is on Python truthiness of the stored scalar, and a truthy scalar
with no matching record propagates `DoesNotExist` from `queryset.get`. -/
def modelFieldUnstore (qs : List MRecord) (v : Value) : Except LookupError (Option MRecord) :=
  if v.truthy then (querysetGet qs v).map some else .ok none

/-- Outcome of the external input-processing toolkit (the Django form built
per request): `is_valid()` and, on success, `cleaned_data`. -/
structure FormResult where
  is_valid : Bool
  cleaned_data : List (String × Value)
deriving DecidableEq, Repr

/-- The request-like object consumed by `BaseDynamicFilter.__init__`:
the session store's entry under the filter's identity name (when present),
the query parameter `GET.get('reset_filter', None)`, the request method
string, and the bound form's validation outcome when the submitted body is
attached. -/
structure Request where
  sessionEntry : Option Values
  resetParam : Option String
  method : String
  formResult : FormResult
deriving DecidableEq, Repr

/-- The session-state resolution performed at the top of
`BaseDynamicFilter.__init__`: the `first_init` / `is_reset` flags, the
initial `values` mapping, and the session store's entry for the filter's
identity name right after this step (reflecting the `del` of the reset
branch). -/
structure SessionResolution where
  first_init : Bool
  is_reset : Bool
  values : Values
  entry : Option Values
deriving DecidableEq, Repr

/-- Lines 162–173 of `BaseDynamicFilter.__init__`:
`first_init` iff the session has no entry under `self.name`; `is_reset` iff
`GET.get('reset_filter', None) == self.name`; when either holds `values`
starts empty and, when the entry exists and this is a reset, the entry is
deleted from the session; otherwise `values` is the existing entry. -/
def resolveSession (name : String) (req : Request) : SessionResolution :=
  let fi : Bool := req.sessionEntry.isNone
  let ir : Bool := decide (req.resetParam = some name)
  if fi || ir then
    { first_init := fi, is_reset := ir, values := [],
      entry := if !fi && ir then none else req.sessionEntry }
  else
    { first_init := fi, is_reset := ir, values := req.sessionEntry.getD [],
      entry := req.sessionEntry }

/-- Dict lookup `self.fields[name]` on the per-instance (deep-copied)
field mapping, which is keyed by the declaring attribute names. -/
def findField : List (String × FieldSpec) → String → Option FieldSpec
  | [], _ => none
  | p :: rest, n => if p.1 = n then some p.2 else findField rest n

/-- `BaseDynamicFilter.set_value`:
`self.values[name] = self.fields[name].store(value)`. In the source an
undeclared `name` raises `KeyError` from the field lookup; every call site
in this file passes a declared field name, and that unreachable case is
embedded as leaving `values` unchanged. -/
def setValue (fields : List (String × FieldSpec)) (n : String) (v : Value)
    (vs : Values) : Values :=
  match findField fields n with
  | some f => alSet vs n (f.store v)
  | none => vs

/-- `BaseDynamicFilter.get_value`: try
`self.fields[name].unstore(self.values[name])`; on `KeyError` (the name is
missing from `values`, or from the field mapping itself) return `default`,
first persisting `store(default)` under `name` when `init` is set. The
result is paired with the possibly-updated `values` mapping. -/
def getValue (fields : List (String × FieldSpec)) (n : String) (default : Value)
    (init : Bool) (vs : Values) : Value × Values :=
  match findField fields n, alGet vs n with
  | some f, some stored => (f.unstore stored, vs)
  | _, _ => if init then (default, setValue fields n default vs) else (default, vs)

/-- The per-field materialization loop of `BaseDynamicFilter.__init__`:
for each `(name, field)` pair, resolve the current value with
`get_value(name, form_field.initial, init=True)`, write it into the copied
form field's `initial`, and clear its `required` flag. Returns the updated
field mapping and the updated `values`. The first argument is the full
field mapping used for the `self.fields[name]` lookups inside
`get_value` / `set_value`. -/
def materializeFields (all : List (String × FieldSpec)) :
    List (String × FieldSpec) → Values → List (String × FieldSpec) × Values
  | [], vs => ([], vs)
  | (n, f) :: rest, vs =>
    let step := getValue all n f.initial true vs
    let tail := materializeFields all rest step.2
    ((n, { f with initial := step.1, required := false }) :: tail.1, tail.2)

/-- The state of a freshly constructed filter instance: flags, the
deep-copied (and materialized) field mapping, the final `values`, the
session entry right after state resolution, and the entry written back to
the session at the end of `__init__` (always the final `values`). -/
structure FilterInstanceState where
  first_init : Bool
  is_reset : Bool
  fields : List (String × FieldSpec)
  values : Values
  sessionAfterResolve : Option Values
  sessionOut : Values

/-- The filter type produced by `DynamicFilterMetaClass`: its identity
name (the class name, used as session key) and the frozen `base_fields`. -/
structure FilterSpec where
  name : String
  base_fields : List (String × FieldSpec)

/-- `BaseDynamicFilter.__init__`: resolve session state, deep-copy and
materialize the fields, then — when the method is `POST` and this is not a
reset — bind the submitted data and, if the form validates, persist every
`cleaned_data` pair through `set_value`; finally write `values` back to
the session under the filter's identity name. Deep copy is identity in
this pure embedding; the form itself is the external toolkit, represented
by `req.formResult`. -/
def initFilter (flt : FilterSpec) (req : Request) : FilterInstanceState :=
  let r := resolveSession flt.name req
  let mat := materializeFields flt.base_fields flt.base_fields r.values
  let vs2 : Values :=
    if req.method = "POST" && !r.is_reset then
      if req.formResult.is_valid then
        req.formResult.cleaned_data.foldl (fun vs p => setValue mat.1 p.1 p.2 vs) mat.2
      else mat.2
    else mat.2
  { first_init := r.first_init, is_reset := r.is_reset, fields := mat.1,
    values := vs2, sessionAfterResolve := r.entry, sessionOut := vs2 }

/-- `BaseField.render_operator`: `self._meta.name` when the operator option
is falsy, else the formatted compound key `'{field}__{operator}'` (Python's
`format` renders a `None` name as the string `"None"`). -/
def render_operator (f : FieldSpec) : Option String :=
  if truthyOptStr f.operator then
    some ((f.name.getD "None") ++ "__" ++ (f.operator.getD ""))
  else f.name

/-- The query-kwargs mapping, keyed by `render_operator` results (which are
`None` exactly when a field has neither a name nor an operator). -/
abbrev Kwargs := List (Option String × Value)

/-- The loop of `BaseDynamicFilter.render_query_kwargs`, threading the
`values` state through the `get_value` calls (made with `init` unset):
include `field.render_operator() → field.render_value(get_value(name))`
iff the value is truthy or the field's `force_empty` option is set. -/
def renderQueryKwargsGo (fields : List (String × FieldSpec)) :
    List (String × FieldSpec) → Kwargs → Values → Kwargs × Values
  | [], kw, vs => (kw, vs)
  | (n, f) :: rest, kw, vs =>
    let step := getValue fields n .vnone false vs
    let value := f.render_value step.1
    if value.truthy || f.force_empty then
      renderQueryKwargsGo fields rest (alSet kw (render_operator f) value) step.2
    else
      renderQueryKwargsGo fields rest kw step.2

/-- `BaseDynamicFilter.render_query_kwargs`, returning the kwargs mapping
together with the `values` state after the call (the source mutates
`self.values` in place). -/
def render_query_kwargs (fields : List (String × FieldSpec)) (vs : Values) :
    Kwargs × Values :=
  renderQueryKwargsGo fields fields [] vs

/-- `BaseDynamicFilter.is_active`:
`True if self.render_query_kwargs() else False` — Python truthiness of the
kwargs dict is non-emptiness. -/
def is_active (fields : List (String × FieldSpec)) (vs : Values) : Bool :=
  !(render_query_kwargs fields vs).1.isEmpty

/-- A concrete plain `Field` instance (identity hooks), declared under the
attribute name `"f"`, with no operator and `force_empty` unset. -/
def plainField : FieldSpec :=
  { name := some "f", operator := none, force_empty := false, counter := 0,
    initial := Value.vnone, required := true,
    store := fun v => v, unstore := fun v => v, render_value := fun v => v }

/-- `plainField` with the `force_empty` option set. -/
def forceEmptyField : FieldSpec :=
  { plainField with force_empty := true }

/-- `plainField` with its name option unset, as a field is before its first
registration on a filter type. -/
def unsetNameField : FieldSpec :=
  { plainField with name := none }

/-- A concrete filter type with identity name `"F"` and the single declared
field `plainField`. -/
def exFilter : FilterSpec :=
  { name := "F", base_fields := [("f", plainField)] }

/-- A fresh-session retrieval request: no session entry, no reset
parameter, method `GET`. -/
def exFreshReq : Request :=
  { sessionEntry := none, resetParam := none, method := "GET",
    formResult := { is_valid := true, cleaned_data := [] } }

/-- A `POST` request against a session whose stored entry is the empty
mapping, whose bound form fails validation. -/
def exInvalidPostReq : Request :=
  { sessionEntry := some [], resetParam := none, method := "POST",
    formResult := { is_valid := false, cleaned_data := [("f", Value.vstr "x")] } }

/-- A `POST` request failing validation against a session entry that
already contains a stored value for every declared field of `exFilter`. -/
def exCoveredInvalidReq : Request :=
  { sessionEntry := some [("f", Value.vstr "a")], resetParam := none, method := "POST",
    formResult := { is_valid := false, cleaned_data := [] } }

/-- A retrieval request carrying `reset_filter=F` against a session that
has an entry for the filter. -/
def exResetReq : Request :=
  { sessionEntry := some [("a", Value.vint 1)], resetParam := some "F", method := "GET",
    formResult := { is_valid := true, cleaned_data := [] } }

/-- Class attributes declaring two fields (creation counters 2 and 1) and
one non-field attribute. -/
def exAttrs : List (String × Attr) :=
  [("a", Attr.fieldAttr { plainField with name := none, counter := 2 }),
   ("x", Attr.otherAttr),
   ("b", Attr.fieldAttr { plainField with name := none, counter := 1 })]

/-- `exAttrs` with the first two attributes listed in the other order. -/
def exAttrsSwapped : List (String × Attr) :=
  [("x", Attr.otherAttr),
   ("a", Attr.fieldAttr { plainField with name := none, counter := 2 }),
   ("b", Attr.fieldAttr { plainField with name := none, counter := 1 })]

theorem alGet_alSet_self {κ : Type} [DecidableEq κ] (vs : List (κ × Value)) (k : κ) (v : Value) :
    alGet (alSet vs k v) k = some v := by
  induction vs with
  | nil => simp [alSet, alGet]
  | cons p rest ih =>
    by_cases h : p.1 = k
    · simp [alSet, alGet, h]
    · simp [alSet, alGet, h, ih]

theorem alGet_alSet_ne {κ : Type} [DecidableEq κ] (vs : List (κ × Value)) (k' k : κ) (v : Value)
    (h : k' ≠ k) : alGet (alSet vs k' v) k = alGet vs k := by
  induction vs with
  | nil => simp [alSet, alGet, h]
  | cons p rest ih =>
    by_cases hp : p.1 = k'
    · simp [alSet, alGet, hp, h, hp ▸ h]
    · simp only [alSet, hp, if_false, alGet]
      by_cases hk : p.1 = k <;> simp [hk, ih]

theorem getValue_noinit_snd (fields : List (String × FieldSpec)) (n : String)
    (d : Value) (vs : Values) : (getValue fields n d false vs).2 = vs := by
  rcases hf : findField fields n with _ | f <;> rcases hg : alGet vs n with _ | s <;>
    simp [getValue, hf, hg]

theorem findField_isSome_of_mem {fields : List (String × FieldSpec)} {n : String}
    {f : FieldSpec} (h : (n, f) ∈ fields) : (findField fields n).isSome := by
  induction fields with
  | nil => cases h
  | cons p rest ih =>
    rcases List.mem_cons.mp h with h | h
    · simp [findField, ← h]
    · by_cases hp : p.1 = n <;> simp [findField, hp, ih h]

theorem findField_eq_of_nodup {fields : List (String × FieldSpec)} {n : String}
    {f : FieldSpec} (hnd : (fields.map Prod.fst).Nodup) (h : (n, f) ∈ fields) :
    findField fields n = some f := by
  induction fields with
  | nil => cases h
  | cons p rest ih =>
    rcases List.mem_cons.mp h with h | h
    · simp [findField, ← h]
    · have hp : p.1 ≠ n := by
        intro he
        exact (List.nodup_cons.mp hnd).1 (he ▸ List.mem_map.mpr ⟨(n, f), h, rfl⟩)
      simp [findField, hp, ih (List.nodup_cons.mp hnd).2 h]

theorem materializeFields_cons_snd (all : List (String × FieldSpec)) (n : String)
    (f : FieldSpec) (rest : List (String × FieldSpec)) (vs : Values) :
    (materializeFields all ((n, f) :: rest) vs).2 =
      (materializeFields all rest (getValue all n f.initial true vs).2).2 := rfl

theorem materialize_preserves (all : List (String × FieldSpec))
    (fields : List (String × FieldSpec)) (vs : Values) (n : String) (v : Value)
    (h : alGet vs n = some v) :
    alGet (materializeFields all fields vs).2 n = some v := by
  induction fields generalizing vs with
  | nil => exact h
  | cons q rest ih =>
    obtain ⟨m, f⟩ := q
    rw [materializeFields_cons_snd]
    rcases hf : findField all m with _ | g <;> rcases hg : alGet vs m with _ | s
    · exact ih _ (by simpa [getValue, hf, hg, setValue] using h)
    · exact ih _ (by simpa [getValue, hf, hg, setValue] using h)
    · have hmn : m ≠ n := fun he => by rw [he, h] at hg; cases hg
      refine ih _ ?_
      simpa [getValue, hf, hg, setValue, alGet_alSet_ne vs m n _ hmn] using h
    · exact ih _ (by simpa [getValue, hf, hg] using h)

theorem materialize_alGet (all : List (String × FieldSpec))
    (fields : List (String × FieldSpec)) (vs : Values)
    (hnd : (fields.map Prod.fst).Nodup)
    (hall : ∀ p ∈ fields, findField all p.1 = some p.2) :
    ∀ p ∈ fields, alGet (materializeFields all fields vs).2 p.1 =
      some ((alGet vs p.1).getD (p.2.store p.2.initial)) := by
  induction fields generalizing vs with
  | nil => intro p hp; cases hp
  | cons q rest ih =>
    obtain ⟨m, f⟩ := q
    intro p hp
    have hfm : findField all m = some f := hall (m, f) (List.mem_cons_self _ _)
    rw [materializeFields_cons_snd]
    rcases List.mem_cons.mp hp with rfl | hp
    · show alGet (materializeFields all rest (getValue all m f.initial true vs).2).2 m =
        some ((alGet vs m).getD (f.store f.initial))
      rcases hg : alGet vs m with _ | s
      · have hstep : (getValue all m f.initial true vs).2 =
            alSet vs m (f.store f.initial) := by
          simp [getValue, hfm, hg, setValue]
        rw [hstep]
        exact materialize_preserves all rest _ m _ (alGet_alSet_self vs m _)
      · have hstep : (getValue all m f.initial true vs).2 = vs := by
          simp [getValue, hfm, hg]
        rw [hstep]
        exact materialize_preserves all rest vs m s hg
    · have hnd' := List.nodup_cons.mp hnd
      have hmp : m ≠ p.1 := fun he =>
        hnd'.1 (he ▸ List.mem_map.mpr ⟨p, hp, rfl⟩)
      have hsame : alGet (getValue all m f.initial true vs).2 p.1 = alGet vs p.1 := by
        rcases hg : alGet vs m with _ | s
        · simp [getValue, hfm, hg, setValue, alGet_alSet_ne vs m p.1 _ hmp]
        · simp [getValue, hfm, hg]
      rw [← hsame]
      exact ih _ hnd'.2 (fun r hr => hall r (List.mem_cons_of_mem _ hr)) p hp

theorem materialize_id_of_cover (all : List (String × FieldSpec))
    (fields : List (String × FieldSpec)) (vs : Values)
    (hcov : ∀ p ∈ fields, (findField all p.1).isSome ∧ (alGet vs p.1).isSome) :
    (materializeFields all fields vs).2 = vs := by
  induction fields with
  | nil => rfl
  | cons q rest ih =>
    obtain ⟨m, f⟩ := q
    obtain ⟨h1, h2⟩ := hcov (m, f) (List.mem_cons_self _ _)
    rcases hf : findField all m with _ | g
    · rw [hf] at h1; cases h1
    rcases hg : alGet vs m with _ | s
    · rw [hg] at h2; cases h2
    rw [materializeFields_cons_snd]
    have hstep : (getValue all m f.initial true vs).2 = vs := by
      simp [getValue, hf, hg]
    rw [hstep]
    exact ih (fun p hp => hcov p (List.mem_cons_of_mem _ hp))

theorem renderQueryKwargsGo_snd (fields : List (String × FieldSpec))
    (rest : List (String × FieldSpec)) (kw : Kwargs) (vs : Values) :
    (renderQueryKwargsGo fields rest kw vs).2 = vs := by
  induction rest generalizing kw with
  | nil => rfl
  | cons q tail ih =>
    obtain ⟨n, f⟩ := q
    rw [show renderQueryKwargsGo fields ((n, f) :: tail) kw vs =
        (let step := getValue fields n .vnone false vs
         let value := f.render_value step.1
         if value.truthy || f.force_empty then
           renderQueryKwargsGo fields tail (alSet kw (render_operator f) value) step.2
         else
           renderQueryKwargsGo fields tail kw step.2) from rfl]
    simp only [getValue_noinit_snd]
    by_cases hc : (f.render_value (getValue fields n .vnone false vs).1).truthy ||
        f.force_empty <;> simp [hc, ih]

theorem renderQueryKwargsGo_untouched_key (fields : List (String × FieldSpec))
    (rest : List (String × FieldSpec)) (kw : Kwargs) (vs : Values) (key : Option String)
    (hnk : ∀ q ∈ rest, render_operator q.2 ≠ key) :
    alGet (renderQueryKwargsGo fields rest kw vs).1 key = alGet kw key := by
  induction rest generalizing kw vs with
  | nil => rfl
  | cons q tail ih =>
    obtain ⟨n, f⟩ := q
    have hq : render_operator f ≠ key := hnk (n, f) (List.mem_cons_self _ _)
    have htail : ∀ r ∈ tail, render_operator r.2 ≠ key := fun r hr =>
      hnk r (List.mem_cons_of_mem _ hr)
    rw [show renderQueryKwargsGo fields ((n, f) :: tail) kw vs =
        (let step := getValue fields n .vnone false vs
         let value := f.render_value step.1
         if value.truthy || f.force_empty then
           renderQueryKwargsGo fields tail (alSet kw (render_operator f) value) step.2
         else
           renderQueryKwargsGo fields tail kw step.2) from rfl]
    by_cases hc : (f.render_value (getValue fields n .vnone false vs).1).truthy ||
        f.force_empty
    · simp only [hc, if_true]
      rw [ih _ _ htail, alGet_alSet_ne _ _ _ _ hq]
    · simp only [hc, if_false]
      exact ih _ _ htail

theorem renderQueryKwargsGo_alGet (fields : List (String × FieldSpec)) :
    ∀ (rest : List (String × FieldSpec)) (kw : Kwargs) (vs : Values)
      (p : String × FieldSpec), p ∈ rest →
      ((rest.map (fun q => render_operator q.2)).Nodup) →
      alGet kw (render_operator p.2) = none →
      (∀ q ∈ rest, findField fields q.1 = some q.2) →
      alGet (renderQueryKwargsGo fields rest kw vs).1 (render_operator p.2) =
        (if (p.2.render_value ((getValue fields p.1 Value.vnone false vs).1)).truthy ||
            p.2.force_empty then
          some (p.2.render_value ((getValue fields p.1 Value.vnone false vs).1))
        else none) := by
  intro rest
  induction rest with
  | nil => intro kw vs p hmem; cases hmem
  | cons q tail ih =>
    intro kw vs p hmem hrk hkw hff
    obtain ⟨n, f⟩ := q
    have hnd' := List.nodup_cons.mp hrk
    rw [show renderQueryKwargsGo fields ((n, f) :: tail) kw vs =
        (let step := getValue fields n .vnone false vs
         let value := f.render_value step.1
         if value.truthy || f.force_empty then
           renderQueryKwargsGo fields tail (alSet kw (render_operator f) value) step.2
         else
           renderQueryKwargsGo fields tail kw step.2) from rfl]
    rcases List.mem_cons.mp hmem with rfl | hmem
    · have htail : ∀ r ∈ tail, render_operator r.2 ≠ render_operator f := by
        intro r hr he
        apply hnd'.1
        have hx : render_operator r.2 ∈ List.map (fun q => render_operator q.2) tail :=
          List.mem_map.mpr ⟨r, hr, rfl⟩
        rw [he] at hx
        exact hx
      by_cases hc : (f.render_value ((getValue fields n Value.vnone false vs).1)).truthy ||
          f.force_empty
      · rw [if_pos hc, if_pos hc,
          renderQueryKwargsGo_untouched_key fields tail _ _ _ htail, alGet_alSet_self]
      · rw [if_neg hc, if_neg hc,
          renderQueryKwargsGo_untouched_key fields tail _ _ _ htail, hkw]
    · have hq_ne : render_operator f ≠ render_operator p.2 := by
        intro he
        apply hnd'.1
        have hx : render_operator p.2 ∈ List.map (fun q => render_operator q.2) tail :=
          List.mem_map.mpr ⟨p, hmem, rfl⟩
        rw [← he] at hx
        exact hx
      have hstep : (getValue fields n Value.vnone false vs).2 = vs :=
        getValue_noinit_snd fields n Value.vnone vs
      by_cases hc : (f.render_value ((getValue fields n Value.vnone false vs).1)).truthy ||
          f.force_empty
      · rw [if_pos hc, hstep]
        exact ih _ _ p hmem hnd'.2
          (by rw [alGet_alSet_ne _ _ _ _ hq_ne]; exact hkw)
          (fun r hr => hff r (List.mem_cons_of_mem _ hr))
      · rw [if_neg hc, hstep]
        exact ih _ _ p hmem hnd'.2 hkw
          (fun r hr => hff r (List.mem_cons_of_mem _ hr))

/-- C1: constructing a FilterInstance resolves session state in exactly one
of three ways — no session entry gives `values = {}`; `reset_filter` equal
to the filter's identity name with an existing entry deletes that entry
and gives `values = {}`; otherwise `values` is the existing entry. -/
theorem c1_session_state_resolution (name : String) (req : Request) :
    (req.sessionEntry = none → (resolveSession name req).values = [] ∧
      (resolveSession name req).first_init = true) ∧
    (∀ e : Values, req.sessionEntry = some e → req.resetParam = some name →
      (resolveSession name req).values = [] ∧ (resolveSession name req).entry = none) ∧
    (∀ e : Values, req.sessionEntry = some e → req.resetParam ≠ some name →
      (resolveSession name req).values = e) := by
  refine ⟨?_, ?_, ?_⟩
  · intro h
    simp [resolveSession, h]
  · intro e he hr
    simp [resolveSession, he, hr]
  · intro e he hr
    simp [resolveSession, he, hr]

/-- C1 witness: on a request carrying `reset_filter=F` against a session
holding an entry, `values` is empty and the session entry is deleted. -/
theorem c1_witness :
    (resolveSession "F" exResetReq).values = [] ∧
    (resolveSession "F" exResetReq).entry = none :=
  (c1_session_state_resolution "F" exResetReq).2.1 [("a", Value.vint 1)] rfl rfl

theorem resolveSession_first_init (name : String) (req : Request) :
    (resolveSession name req).first_init = req.sessionEntry.isNone := by
  simp only [resolveSession]
  split <;> rfl

theorem initFilter_first_init (flt : FilterSpec) (req : Request) :
    (initFilter flt req).first_init = req.sessionEntry.isNone := by
  have h := resolveSession_first_init flt.name req
  simpa [initFilter] using h

/-- C2: on a fresh session and a non-submitting request, the session entry
written by construction holds `store(initial)` for every declared field,
and any construction against the resulting session reports
`first_init = false`. -/
theorem c2_first_init_default_persistence (flt : FilterSpec) (req : Request)
    (hfresh : req.sessionEntry = none) (hmethod : req.method ≠ "POST")
    (hnd : (flt.base_fields.map Prod.fst).Nodup) :
    (∀ p ∈ flt.base_fields,
      alGet (initFilter flt req).sessionOut p.1 = some (p.2.store p.2.initial)) ∧
    (∀ req' : Request, req'.sessionEntry = some (initFilter flt req).sessionOut →
      (initFilter flt req').first_init = false) := by
  have hres : (resolveSession flt.name req).values = [] := by
    simp [resolveSession, hfresh]
  have hout : (initFilter flt req).sessionOut =
      (materializeFields flt.base_fields flt.base_fields []).2 := by
    simp [initFilter, hres, hmethod]
  constructor
  · intro p hp
    rw [hout]
    have h := materialize_alGet flt.base_fields flt.base_fields [] hnd
      (fun q hq => findField_eq_of_nodup hnd hq) p hp
    simpa using h
  · intro req' h'
    rw [initFilter_first_init, h']
    rfl

/-- C2 witness: concretely, a fresh `GET` construction stores the declared
field's default and a second construction is not a first init. -/
theorem c2_witness :
    alGet (initFilter exFilter exFreshReq).sessionOut "f" = some Value.vnone ∧
    (initFilter exFilter { exFreshReq with
      sessionEntry := some (initFilter exFilter exFreshReq).sessionOut }).first_init = false := by
  have h := c2_first_init_default_persistence exFilter exFreshReq rfl (by decide) (by decide)
  exact ⟨h.1 ("f", plainField) (List.mem_cons_self _ _), h.2 _ rfl⟩

/-- C3 counterexample: a non-reset `POST` whose form fails validation, made
against a session whose stored entry is the empty mapping, still writes
back a non-empty `values` mapping — the materialization step persisted the
declared field's stored default, so the write-back differs from the
pre-request session state. -/
theorem c3_counterexample :
    exInvalidPostReq.method = "POST" ∧
    exInvalidPostReq.resetParam ≠ some exFilter.name ∧
    exInvalidPostReq.sessionEntry = some [] ∧
    exInvalidPostReq.formResult.is_valid = false ∧
    (initFilter exFilter exInvalidPostReq).sessionOut ≠ [] ∧
    (initFilter exFilter exInvalidPostReq).sessionOut = [("f", Value.vnone)] := by
  refine ⟨rfl, by decide, rfl, rfl, by decide, by decide⟩

/-- C3 amended: for a non-reset `POST` that fails validation, the `values`
written back equal the pre-request session entry after the per-field
default materialization (the invalid submission itself contributes
nothing); when the pre-request entry already holds a value for every
declared field, the write-back is identical to the pre-request entry. -/
theorem c3_invalid_submission_amended (flt : FilterSpec) (req : Request) (vs0 : Values)
    (hpost : req.method = "POST") (hnoreset : req.resetParam ≠ some flt.name)
    (hentry : req.sessionEntry = some vs0)
    (hinvalid : req.formResult.is_valid = false) :
    (initFilter flt req).sessionOut =
      (materializeFields flt.base_fields flt.base_fields vs0).2 ∧
    ((∀ p ∈ flt.base_fields, (alGet vs0 p.1).isSome = true) →
      (initFilter flt req).sessionOut = vs0) := by
  have hres : resolveSession flt.name req =
      { first_init := false, is_reset := false, values := vs0, entry := some vs0 } := by
    simp [resolveSession, hentry, hnoreset]
  have hout : (initFilter flt req).sessionOut =
      (materializeFields flt.base_fields flt.base_fields vs0).2 := by
    simp [initFilter, hres, hpost, hinvalid]
  refine ⟨hout, fun hcov => ?_⟩
  rw [hout]
  exact materialize_id_of_cover flt.base_fields flt.base_fields vs0
    (fun p hp => ⟨findField_isSome_of_mem (show (p.1, p.2) ∈ flt.base_fields from hp),
      hcov p hp⟩)

/-- C3 amended witness: against a pre-request entry covering the declared
field, an invalid submission writes back exactly the pre-request entry. -/
theorem c3_amended_witness :
    (initFilter exFilter exCoveredInvalidReq).sessionOut = [("f", Value.vstr "a")] :=
  (c3_invalid_submission_amended exFilter exCoveredInvalidReq [("f", Value.vstr "a")]
    rfl (by decide) rfl rfl).2 (by decide)

/-- C4: the frozen field mapping collected by the filter metaclass is
sorted ascending by the attached form fields' creation counters, is a
permutation of the registered field attributes, and — when the counters
are distinct — is the same mapping whatever order the class attributes are
listed in. -/
theorem c4_declaration_order (attrs attrs' : List (String × Attr))
    (hnd : ((registeredFields attrs).map (fun p => p.2.counter)).Nodup)
    (hperm : attrs.Perm attrs') :
    List.Sorted fieldLe (collectFields attrs) ∧
    (collectFields attrs).Perm (registeredFields attrs) ∧
    collectFields attrs = collectFields attrs' := by
  have hs1 : List.Sorted fieldLe (collectFields attrs) :=
    List.sorted_insertionSort fieldLe _
  have hs2 : List.Sorted fieldLe (collectFields attrs') :=
    List.sorted_insertionSort fieldLe _
  have hp1 : (collectFields attrs).Perm (registeredFields attrs) :=
    List.perm_insertionSort fieldLe _
  have hp2 : (collectFields attrs').Perm (registeredFields attrs') :=
    List.perm_insertionSort fieldLe _
  have hpr : (registeredFields attrs).Perm (registeredFields attrs') :=
    hperm.filterMap registerField
  have hpc : (collectFields attrs).Perm (collectFields attrs') :=
    (hp1.trans hpr).trans hp2.symm
  have key : ∀ l : List (String × FieldSpec), List.Sorted fieldLe l →
      ((l.map (fun p => p.2.counter)).Nodup) → List.Sorted fieldLt l := by
    intro l hs hn
    have hn' : l.Pairwise (fun a b => a.2.counter ≠ b.2.counter) :=
      List.pairwise_map.mp hn
    exact (hs.and hn').imp (fun h => lt_of_le_of_ne h.1 h.2)
  have hnd1 : ((collectFields attrs).map (fun p => p.2.counter)).Nodup :=
    (List.Perm.nodup_iff (hp1.map (fun p => p.2.counter))).mpr hnd
  have hnd2 : ((collectFields attrs').map (fun p => p.2.counter)).Nodup :=
    (List.Perm.nodup_iff (hpc.map (fun p => p.2.counter))).mp hnd1
  exact ⟨hs1, hp1,
    List.eq_of_perm_of_sorted hpc (key _ hs1 hnd1) (key _ hs2 hnd2)⟩

/-- C4 witness: two concrete attribute lists, differing in attribute order,
collect into the same counter-sorted field mapping. -/
theorem c4_witness :
    collectFields exAttrs = collectFields exAttrsSwapped ∧
    List.Sorted fieldLe (collectFields exAttrs) := by
  have h := c4_declaration_order exAttrs exAttrsSwapped (by decide)
    (List.Perm.swap ("x", Attr.otherAttr)
      ("a", Attr.fieldAttr { plainField with name := none, counter := 2 }) _)
  exact ⟨h.2.2, h.1⟩

/-- C5: `render_query_kwargs` includes `render_operator(field) → value`
(with `value = render_value(get_value(name))`) iff the value is truthy or
the field's `force_empty` option is set; concretely, a single field with
value `""` and `force_empty` unset yields empty kwargs and an inactive
filter, while the same field with `force_empty` set yields its operator
key mapped to `""` and an active filter. -/
theorem c5_kwargs_inclusion (fields : List (String × FieldSpec)) (vs : Values)
    (p : String × FieldSpec) (hmem : p ∈ fields)
    (hnd : (fields.map Prod.fst).Nodup)
    (hrk : (fields.map (fun q => render_operator q.2)).Nodup) :
    (alGet (render_query_kwargs fields vs).1 (render_operator p.2) =
      (if (p.2.render_value ((getValue fields p.1 Value.vnone false vs).1)).truthy ||
          p.2.force_empty then
        some (p.2.render_value ((getValue fields p.1 Value.vnone false vs).1))
      else none)) ∧
    ((render_query_kwargs [("f", plainField)] [("f", Value.vstr "")]).1 = [] ∧
      is_active [("f", plainField)] [("f", Value.vstr "")] = false) ∧
    ((render_query_kwargs [("f", forceEmptyField)] [("f", Value.vstr "")]).1 =
        [(some "f", Value.vstr "")] ∧
      is_active [("f", forceEmptyField)] [("f", Value.vstr "")] = true) := by
  refine ⟨?_, ⟨by decide, by decide⟩, ⟨by decide, by decide⟩⟩
  exact renderQueryKwargsGo_alGet fields fields [] vs p hmem hrk rfl
    (fun q hq => findField_eq_of_nodup hnd hq)

/-- C5 witness: the two concrete empty-value scenarios, obtained through
the claim theorem at its concrete inputs. -/
theorem c5_witness :
    (render_query_kwargs [("f", plainField)] [("f", Value.vstr "")]).1 = [] ∧
    is_active [("f", forceEmptyField)] [("f", Value.vstr "")] = true :=
  ⟨(c5_kwargs_inclusion [("f", plainField)] [("f", Value.vstr "")] ("f", plainField)
      (List.mem_cons_self _ _) (by decide) (by decide)).2.1.1,
   (c5_kwargs_inclusion [("f", forceEmptyField)] [("f", Value.vstr "")] ("f", forceEmptyField)
      (List.mem_cons_self _ _) (by decide) (by decide)).2.2.2⟩

/-- C6 counterexample: a record with the falsy primary key `0` exists in
the lookup collection, yet `unstore(store(record))` is the null sentinel,
not a record with the same primary key — `store` yields the scalar `0`,
which `unstore`'s truthiness test routes to the `None` branch. -/
theorem c6_counterexample :
    List.filter (fun x => x.pk = Value.vint 0) [{ pk := Value.vint 0 }] =
      [({ pk := Value.vint 0 } : MRecord)] ∧
    modelFieldUnstore [{ pk := Value.vint 0 }]
      (modelFieldStore (some { pk := Value.vint 0 })) = Except.ok none ∧
    (Except.ok (none : Option MRecord) : Except LookupError (Option MRecord)) ≠
      Except.ok (some { pk := Value.vint 0 }) := by
  refine ⟨by decide, rfl, by simp⟩

/-- C6 amended: non-reference round-trip holds unconditionally; the
reference-field round-trip holds when the record's primary key is truthy
and the record is the unique one with that key in the lookup collection
(a falsy key is routed to the null sentinel instead); `unstore(store(None))`
is `None`. -/
theorem c6_round_trip_amended :
    (∀ v : Value, baseFieldUnstore (baseFieldStore v) = v) ∧
    (∀ (qs : List MRecord) (r : MRecord), r.pk.truthy = true →
      qs.filter (fun x => x.pk = r.pk) = [r] →
      modelFieldUnstore qs (modelFieldStore (some r)) = Except.ok (some r)) ∧
    (∀ qs : List MRecord, modelFieldUnstore qs (modelFieldStore none) = Except.ok none) := by
  refine ⟨fun v => rfl, ?_, fun qs => rfl⟩
  intro qs r ht hf
  simp [modelFieldUnstore, modelFieldStore, ht, querysetGet, hf, Except.map]

/-- C6 amended witness: round-trip at a record with truthy key `1`. -/
theorem c6_witness :
    modelFieldUnstore [{ pk := Value.vint 1 }]
      (modelFieldStore (some { pk := Value.vint 1 })) =
      Except.ok (some ({ pk := Value.vint 1 } : MRecord)) :=
  c6_round_trip_amended.2.1 [{ pk := Value.vint 1 }] { pk := Value.vint 1 }
    (by decide) (by decide)

/-- C7 counterexample: a truthy stored key that no longer resolves makes
`unstore` propagate `DoesNotExist` from `queryset.get`, not return the
null sentinel. -/
theorem c7_counterexample :
    Value.truthy (Value.vint 5) = true ∧
    querysetGet [] (Value.vint 5) = Except.error LookupError.doesNotExist ∧
    modelFieldUnstore [] (Value.vint 5) = Except.error LookupError.doesNotExist ∧
    (Except.error LookupError.doesNotExist : Except LookupError (Option MRecord)) ≠
      Except.ok none := by
  refine ⟨rfl, rfl, rfl, by simp⟩

/-- C7 amended: `unstore` returns the null sentinel exactly for falsy
stored keys; a truthy stored key with no matching record raises the
lookup collection's `DoesNotExist` instead of degrading to the sentinel. -/
theorem c7_unresolved_key_amended :
    (∀ (qs : List MRecord) (k : Value), k.truthy = false →
      modelFieldUnstore qs k = Except.ok none) ∧
    (∀ (qs : List MRecord) (k : Value), k.truthy = true →
      qs.filter (fun r => r.pk = k) = [] →
      modelFieldUnstore qs k = Except.error LookupError.doesNotExist) := by
  constructor
  · intro qs k hk
    simp [modelFieldUnstore, hk]
  · intro qs k hk hf
    simp [modelFieldUnstore, hk, querysetGet, hf, Except.map]

/-- C7 amended witness: the falsy key `None` maps to the sentinel and the
truthy unresolved key `5` raises. -/
theorem c7_witness :
    modelFieldUnstore [] Value.vnone = Except.ok none ∧
    modelFieldUnstore [] (Value.vint 5) = Except.error LookupError.doesNotExist :=
  ⟨c7_unresolved_key_amended.1 [] Value.vnone rfl,
   c7_unresolved_key_amended.2 [] (Value.vint 5) rfl rfl⟩

/-- C8: `render_query_kwargs` never modifies the `values` mapping — its
`get_value` calls are made without `init`, so the state it returns equals
the state it was given. -/
theorem c8_render_kwargs_frame (fields : List (String × FieldSpec)) (vs : Values) :
    (render_query_kwargs fields vs).2 = vs :=
  renderQueryKwargsGo_snd fields fields [] vs

/-- C9: evaluating the option check at misconfigured descriptors. A
non-`FormField` plain instance (here a `str`) makes the error-message
construction itself raise `AttributeError` — the declaration fails, but
not with the configuration error naming the field type that the claim
describes; a class object does produce the `TypeError` naming the field
type (with the literal, brace-escaped `\x7btype\x7d` in its message), and a
missing descriptor produces the naming `ValueError`. -/
theorem c9_misconfigured_descriptor_eval :
    check_field_options "StatusField" (some (PyDescriptor.instanceObj "str")) =
      Except.error (PyError.attributeError "str object has no attribute __name__") ∧
    check_field_options "StatusField" (some (PyDescriptor.classObj "CharField")) =
      Except.error (PyError.typeError
        "StatusField.Meta.field have to a valid Django Field, cannot be a \x7btype\x7d") ∧
    check_field_options "StatusField" none =
      Except.error (PyError.valueError "StatusField.Meta.field have to be specified.") :=
  ⟨rfl, rfl, rfl⟩

/-- C10: registering a field whose name option is unset writes the
declaring attribute's name into the shared field's metadata, and a later
registration under a different attribute name leaves the field unchanged —
it keeps the first registration's name. -/
theorem c10_shared_field_keeps_first_name (f : FieldSpec) (k1 k2 : String)
    (hunset : truthyOptStr f.name = false) (hk1 : k1 ≠ "") :
    (assignName k1 f).name = some k1 ∧
    assignName k2 (assignName k1 f) = assignName k1 f := by
  have h1 : assignName k1 f = { f with name := some k1 } := by
    simp [assignName, hunset]
  refine ⟨by rw [h1], ?_⟩
  rw [h1]
  simp [assignName, truthyOptStr, hk1]

/-- C10 witness: a field first registered under `"status"` keeps that name
when registered again under `"other"`. -/
theorem c10_witness :
    (assignName "status" unsetNameField).name = some "status" ∧
    assignName "other" (assignName "status" unsetNameField) =
      assignName "status" unsetNameField :=
  c10_shared_field_keeps_first_name unsetNameField "status" "other" rfl (by decide)
